import Mathlib

/-!
Verification of `src/snakemake/helper_functions.py`.

The module derives the expected output-file paths of an SV-calling pipeline
from a loaded configuration document and a sample manifest.  The embedding
below mirrors the source function by function:

* `get_callers`, `get_filext`, `get_outdir`, `get_nthreads`, `get_memory`,
  `get_tmpspace` are the configuration accessors of the same names;
* `make_output` is the target derivation (`helper_functions.make_output`);
  the fatal exits (`os._exit(1)`) and the uncaught `AssertionError`s are
  modelled as `Except Err` results;
* `make_all` is the merged-target derivation (`helper_functions.make_all`).

Python dictionaries are modelled as association lists with distinct keys.
`str.startswith` and `str.endswith` with a one-character argument are the
first-character and last-character tests, and `str.split` with the one-character
separators `','` and `'/'` (`os.sep`) is a character-level split; they are
translated at the `List Char` level so that all definitions evaluate.
-/

namespace SvCallers

/-- Settings of one supported caller: one value of the configuration's
`callers` mapping.  `outdir` is the `"outdir"` key (read unconditionally by
`get_outdir`); `threads`, `memory` and `tmpspace` are the optional keys read
by the resource accessors, `none` meaning the key is absent. -/
structure CallerSettings where
  outdir : String
  threads : Option Int
  memory : Option Int
  tmpspace : Option Int
deriving DecidableEq

/-- The fields of the loaded configuration document (`analysis.yaml`) that
the functions under verification read: the manifest path `samples`, the
workflow `mode`, the `enable_callers` list, the supported-caller mapping
`callers`, and the `file_exts` mapping. -/
structure Config where
  samples : String
  mode : String
  enable_callers : List String
  callers : List (String × CallerSettings)
  file_exts : List (String × String)

/-- The fatal outcomes of the helpers.  `modeErr` is the invalid-workflow-mode
exit; `rowErr file idx vals` is the missing-value exit, carrying the manifest
file name, the 1-based record index and the row's raw values exactly as the
printed message does; `callerErr c` is the `AssertionError` raised by
`get_callers` for the unsupported name `c`; `filextErr f` is the
`AssertionError` raised by `get_filext` for an unknown format `f`. -/
inductive Err where
  | modeErr : Err
  | rowErr : String → Nat → List (Option String) → Err
  | callerErr : String → Err
  | filextErr : String → Err
deriving DecidableEq

/-- Decidable equality of fallible results, so that concrete runs of the
embedded functions can be checked by evaluation. -/
instance exceptDecEq {ε α : Type} [DecidableEq ε] [DecidableEq α] :
    DecidableEq (Except ε α) := fun x y =>
  match x, y with
  | .ok a, .ok b =>
    if h : a = b then isTrue (by rw [h]) else isFalse fun hc => h (Except.ok.inj hc)
  | .ok _, .error _ => isFalse fun hc => Except.noConfusion hc
  | .error _, .ok _ => isFalse fun hc => Except.noConfusion hc
  | .error e, .error f =>
    if h : e = f then isTrue (by rw [h]) else isFalse fun hc => h (Except.error.inj hc)

/-- Python `os.path.join(a, b)` on POSIX for two string arguments.  Since
`os.sep` is the single character `/`, `b.startswith(sep)` is the
first-character test and `path.endswith(sep)` the last-character test. -/
def pjoin (a b : String) : String :=
  if b.data.head? = some '/' then b
  else if a = "" ∨ a.data.getLast? = some '/' then a ++ b
  else a ++ "/" ++ b

/-- Worker for `splitOnChar`: splits the remaining characters at every
occurrence of `sep`, `acc` being the reversed current field. -/
def splitChar (sep : Char) : List Char → List Char → List String
  | [], acc => [⟨acc.reverse⟩]
  | c :: cs, acc =>
    if c = sep then ⟨acc.reverse⟩ :: splitChar sep cs [] else splitChar sep cs (c :: acc)

/-- Python `s.split(sep)` for a one-character separator `sep`: split at every
occurrence, keeping empty fields (`"".split(sep) = [""]`). -/
def splitOnChar (sep : Char) (s : String) : List String :=
  splitChar sep s.data []

/-- Python `sep.join(parts)`. -/
def joinSep (sep : String) : List String → String
  | [] => ""
  | [s] => s
  | s :: rest => s ++ sep ++ joinSep sep rest

/-- Worker for `get_callers` (`helper_functions.py` lines 10-18): walk the
`enable_callers` list, raising `AssertionError` at the first name that is not
a key of the `callers` mapping, otherwise collecting the names in order. -/
def get_callers_go (cs : List (String × CallerSettings)) : List String → Except Err (List String)
  | [] => .ok []
  | c :: rest =>
    if (cs.lookup c).isSome then
      match get_callers_go cs rest with
      | .ok l => .ok (c :: l)
      | .error e => .error e
    else .error (.callerErr c)

/-- `helper_functions.get_callers`. -/
def get_callers (cfg : Config) : Except Err (List String) :=
  get_callers_go cfg.callers cfg.enable_callers

/-- `helper_functions.get_filext` (lines 21-27): look `fmt` up in the
`file_exts` mapping, raising `AssertionError` when it is absent. -/
def get_filext (cfg : Config) (fmt : String) : Except Err String :=
  match cfg.file_exts.lookup fmt with
  | some e => .ok e
  | none => .error (.filextErr fmt)

/-- `helper_functions.get_outdir` (lines 105-108): a raw dictionary lookup,
`none` when the caller is not in the `callers` mapping (a `KeyError` in the
source). -/
def get_outdir (cfg : Config) (c : String) : Option String :=
  (cfg.callers.lookup c).map fun s => s.outdir

/-- `helper_functions.get_nthreads` (lines 111-117): the caller's `threads`
key when present, else the default `1`. -/
def get_nthreads (cfg : Config) (c : String) : Option Int :=
  (cfg.callers.lookup c).map fun s => s.threads.getD 1

/-- `helper_functions.get_memory` (lines 120-126): the caller's `memory` key
when present, else the default `1024`. -/
def get_memory (cfg : Config) (c : String) : Option Int :=
  (cfg.callers.lookup c).map fun s => s.memory.getD 1024

/-- `helper_functions.get_tmpspace` (lines 129-135): the caller's `tmpspace`
key when present, else the default `0`. -/
def get_tmpspace (cfg : Config) (c : String) : Option Int :=
  (cfg.callers.lookup c).map fun s => s.tmpspace.getD 0

/-- One data row as produced by `csv.DictReader`: the values of the `PATH`,
`SAMPLE1` and `SAMPLE2` keys (`none` models Python `None`, i.e. the field is
absent because the row is shorter than the header), together with
`list(r.values())`, the raw values cited by the missing-value message.  The
header is assumed to carry the field names the active mode reads, with
distinct names (the shape `csv.DictReader` guarantees for a well-formed
header). -/
structure Row where
  path : Option String
  sample1 : Option String
  sample2 : Option String
  values : List (Option String)
deriving DecidableEq

/-- The inner `is_ok` of `make_output` (lines 154-157): `False` (here `none`)
for `None` and for the empty string, the value itself otherwise. -/
def is_ok (s : Option String) : Option String :=
  match s with
  | none => none
  | some t => if t = "" then none else some t

/-- The sample-path construction of `make_output` for one row (lines
172-174): `os.path.join(r["PATH"], is_ok(r["SAMPLE1"]))`, then in paired mode
`path += "--" + is_ok(r["SAMPLE2"])`.  A `none` result is the `TypeError`
caught by the source (raised by `join`/`+` on `None` or on the `False`
returned by `is_ok`).  `mode.startswith('p')` is the first-character test. -/
def rowPath (mode : String) (r : Row) : Option String :=
  match r.path, is_ok r.sample1 with
  | some p, some s1 =>
    if mode.data.head? = some 'p' then
      match is_ok r.sample2 with
      | some s2 => some (pjoin p s1 ++ "--" ++ s2)
      | none => none
    else some (pjoin p s1)
  | _, _ => none

/-- The inner caller loop of `make_output` (lines 181-185): for each caller,
`vcf = c + get_filext("vcf")`, then
`os.path.join(path, get_outdir(c), "survivor", vcf)`.  The `none` branch of
the `outdir` lookup is unreachable when the list comes from `get_callers`,
which has already checked membership in the same mapping. -/
def targetsFor (cfg : Config) (path : String) : List String → Except Err (List String)
  | [] => .ok []
  | c :: rest =>
    match get_filext cfg "vcf" with
    | .error e => .error e
    | .ok ext =>
      match cfg.callers.lookup c with
      | none => .error (.callerErr c)
      | some s =>
        match targetsFor cfg path rest with
        | .error e => .error e
        | .ok l => .ok (pjoin (pjoin (pjoin path s.outdir) "survivor") (c ++ ext) :: l)

/-- The row loop of `make_output` (lines 170-185): `i` is the 0-based
`enumerate` counter.  For each row the sample path is built first (a failure
is reported with record index `i + 1` and the row's values), and only then is
`get_callers()` evaluated, inside the loop body. -/
def processRows (cfg : Config) : List Row → Nat → Except Err (List String)
  | [], _ => .ok []
  | r :: rest, i =>
    match rowPath cfg.mode r with
    | none => .error (.rowErr cfg.samples (i + 1) r.values)
    | some path =>
      match get_callers cfg with
      | .error e => .error e
      | .ok callers =>
        match targetsFor cfg path callers with
        | .error e => .error e
        | .ok ts =>
          match processRows cfg rest (i + 1) with
          | .error e => .error e
          | .ok l => .ok (ts ++ l)

/-- `helper_functions.make_output` (lines 151-186) over the already parsed
data rows: the mode is validated first (`mode not in ('s', 'p')` exits), then
the rows are processed in order. -/
def make_output (cfg : Config) (rows : List Row) : Except Err (List String) :=
  if cfg.mode = "s" ∨ cfg.mode = "p" then processRows cfg rows 0
  else .error .modeErr

/-- The value of key `name` in `dict(zip(header, fields))` with
`restval=None`: pairs are formed positionally, a later duplicate key wins,
and a key of `header` beyond the length of `fields` maps to `None`. -/
def dictGet (header fields : List String) (name : String) : Option String :=
  (header.zip fields).reverse.lookup name

/-- One `csv.DictReader` row from a data line: fields are the comma-split of
the line, matched positionally to the header. -/
def parseRow (header : List String) (line : String) : Row :=
  ⟨dictGet header (splitOnChar ',' line) "PATH",
   dictGet header (splitOnChar ',' line) "SAMPLE1",
   dictGet header (splitOnChar ',' line) "SAMPLE2",
   header.dedup.map (dictGet header (splitOnChar ',' line))⟩

/-- The manifest parsing of `make_output` (line 168):
`DictReader(line for line in fp if not line.startswith("#"))`.  Lines whose
first character is `#` are dropped before the reader sees them; the `csv`
module then skips blank lines; the first remaining line is the header and
every later one a data row. -/
def parseManifest (lines : List String) : List Row :=
  match (lines.filter fun l => !(l.data.head? == some '#')).filter (fun l => !(l == "")) with
  | [] => []
  | header :: rest => rest.map (parseRow (splitOnChar ',' header))

/-- `make_output` from the manifest's raw lines. -/
def make_outputL (cfg : Config) (lines : List String) : Except Err (List String) :=
  make_output cfg (parseManifest lines)

/-- The per-target step of `make_all` (line 194):
`os.path.join(os.sep.join(f.split(os.sep)[:-3]), "all.vcf")`. -/
def mergePath (f : String) : String :=
  pjoin (joinSep "/" ((splitOnChar '/' f).take ((splitOnChar '/' f).length - 3))) "all.vcf"

/-- The set construction of `make_all` (lines 192-196): map every per-caller
target to its merged path and collect the results into a set. -/
def deriveMerged (l : List String) : Finset String :=
  (l.map mergePath).toFinset

/-- `helper_functions.make_all` (lines 189-196) over parsed rows: it calls
`make_output` and merges its result, so any fatal outcome of `make_output`
propagates. -/
def make_all (cfg : Config) (rows : List Row) : Except Err (Finset String) :=
  (make_output cfg rows).map deriveMerged

/-- `make_all` from the manifest's raw lines. -/
def make_allL (cfg : Config) (lines : List String) : Except Err (Finset String) :=
  (make_outputL cfg lines).map deriveMerged

/-- The per-caller target `make_output` emits for sample path `p` and caller
`c` (lines 181-185), written with the total lookups: for a caller validated
by `get_callers` and a configured `vcf` extension the `getD` defaults are
never reached. -/
def mkTarget (cfg : Config) (p c : String) : String :=
  pjoin (pjoin (pjoin p (((cfg.callers.lookup c).map CallerSettings.outdir).getD "")) "survivor")
    (c ++ ((cfg.file_exts.lookup "vcf").getD ""))

/-- The sample path of a valid row, as a total function. -/
def rowPathD (mode : String) (r : Row) : String :=
  (rowPath mode r).getD ""

/-- Caller settings used by the concrete test configurations. -/
def mantaSettings : CallerSettings :=
  ⟨"manta_out", none, none, none⟩

/-- Caller settings with all optional resource keys present. -/
def dellySettings : CallerSettings :=
  ⟨"delly_out", some 4, some 8192, some 10⟩

/-- Paired-mode configuration with the single enabled caller `manta`
(end-to-end example of the spec). -/
def cfgBase : Config :=
  ⟨"samples.csv", "p", ["manta"], [("manta", mantaSettings)], [("vcf", ".vcf")]⟩

/-- Single-mode configuration with the single enabled caller `manta`. -/
def cfgS : Config :=
  ⟨"samples.csv", "s", ["manta"], [("manta", mantaSettings)], [("vcf", ".vcf")]⟩

/-- Configuration whose enabled caller `bogus` is not supported. -/
def cfgBad : Config :=
  ⟨"samples.csv", "s", ["bogus"], [("manta", mantaSettings)], [("vcf", ".vcf")]⟩

/-- Configuration with an invalid workflow mode. -/
def cfgX : Config :=
  ⟨"samples.csv", "x", ["manta"], [("manta", mantaSettings)], [("vcf", ".vcf")]⟩

/-- Single-mode configuration with two enabled callers. -/
def cfgTwo : Config :=
  ⟨"samples.csv", "s", ["manta", "delly"],
   [("manta", mantaSettings), ("delly", dellySettings)], [("vcf", ".vcf")]⟩

/-- Paired-mode manifest row `{PATH: "runs", SAMPLE1: "A", SAMPLE2: "B"}`. -/
def rowAB : Row :=
  ⟨some "runs", some "A", some "B", [some "runs", some "A", some "B"]⟩

/-- Row whose `PATH` field is the empty string. -/
def rowEmptyPath : Row :=
  ⟨some "", some "A", none, [some "", some "A"]⟩

/-- Row whose `SAMPLE2` field is absent. -/
def rowNoS2 : Row :=
  ⟨some "runs", some "C", none, [some "runs", some "C", none]⟩

/-- Row with every field absent. -/
def rowNone : Row :=
  ⟨none, none, none, [none]⟩

/-- A concatenation with a middle separator is never the empty string. -/
theorem append_sep_ne_empty (a b : String) : a ++ "/" ++ b ≠ "" := by
  intro h
  have hd := congrArg String.data h
  simp [String.data_append] at hd

/-- The last character of a concatenation is that of its nonempty right part. -/
theorem getLast_append_str (a b : String) (hb : b ≠ "") :
    (a ++ b).data.getLast? = b.data.getLast? := by
  rw [String.data_append]
  exact List.getLast?_append_of_ne_nil _ (by simpa [String.ext_iff] using hb)

/-- `pjoin` inserts the separator when the right part does not start with one
and the left part is nonempty and does not end with one. -/
theorem pjoin_eq (a b : String) (hb : ¬ b.data.head? = some '/') (ha : a ≠ "")
    (hae : ¬ a.data.getLast? = some '/') : pjoin a b = a ++ "/" ++ b := by
  simp [pjoin, hb, ha, hae]

/-- `get_callers` succeeds and returns the enabled list itself when every
enabled name is a key of the supported mapping. -/
theorem get_callers_go_ok (cs : List (String × CallerSettings)) (l : List String)
    (h : ∀ c ∈ l, (cs.lookup c).isSome) : get_callers_go cs l = .ok l := by
  induction l with
  | nil => rfl
  | cons c rest ih =>
    have hc := h c (by simp)
    have hr := ih fun x hx => h x (List.mem_cons_of_mem _ hx)
    simp [get_callers_go, hc, hr]

/-- `get_callers` fails with an unsupported-caller error as soon as some
enabled name is missing from the supported mapping. -/
theorem get_callers_go_error (cs : List (String × CallerSettings)) (l : List String)
    (h : ∃ c ∈ l, cs.lookup c = none) :
    ∃ c, get_callers_go cs l = .error (.callerErr c) := by
  induction l with
  | nil => simp at h
  | cons c rest ih =>
    by_cases hc : (cs.lookup c).isSome
    · have hrest : ∃ x ∈ rest, cs.lookup x = none := by
        obtain ⟨x, hx, hnone⟩ := h
        rcases List.mem_cons.mp hx with rfl | hx'
        · rw [hnone] at hc
          simp at hc
        · exact ⟨x, hx', hnone⟩
      obtain ⟨e, he⟩ := ih hrest
      exact ⟨e, by simp [get_callers_go, hc, he]⟩
    · exact ⟨c, by simp [get_callers_go, hc]⟩

/-- The caller loop emits exactly one target per caller, in list order. -/
theorem targetsFor_ok (cfg : Config) (path : String) (l : List String)
    (hext : (cfg.file_exts.lookup "vcf").isSome)
    (h : ∀ c ∈ l, (cfg.callers.lookup c).isSome) :
    targetsFor cfg path l = .ok (l.map fun c => mkTarget cfg path c) := by
  induction l with
  | nil => rfl
  | cons c rest ih =>
    obtain ⟨ext, hext'⟩ := Option.isSome_iff_exists.mp hext
    obtain ⟨s, hs⟩ := Option.isSome_iff_exists.mp (h c (by simp))
    have hr := ih fun x hx => h x (List.mem_cons_of_mem _ hx)
    simp [targetsFor, get_filext, hext', hs, hr, mkTarget]

/-- A valid workflow mode lets `make_output` reach the row loop. -/
theorem make_output_valid_mode (cfg : Config) (rows : List Row)
    (hm : cfg.mode = "s" ∨ cfg.mode = "p") :
    make_output cfg rows = processRows cfg rows 0 := by
  simp [make_output, hm]

/-- The row loop on all-valid rows under a well-formed configuration returns
the full cross product, row-major and caller-minor. -/
theorem processRows_ok (cfg : Config) (rows : List Row)
    (hext : (cfg.file_exts.lookup "vcf").isSome)
    (hsup : ∀ c ∈ cfg.enable_callers, (cfg.callers.lookup c).isSome)
    (hrows : ∀ r ∈ rows, (rowPath cfg.mode r).isSome) (i : Nat) :
    processRows cfg rows i
      = .ok (rows.flatMap fun r =>
          cfg.enable_callers.map fun c => mkTarget cfg (rowPathD cfg.mode r) c) := by
  induction rows generalizing i with
  | nil => rfl
  | cons r rest ih =>
    obtain ⟨p, hp⟩ := Option.isSome_iff_exists.mp (hrows r (by simp))
    have hgc : get_callers cfg = .ok cfg.enable_callers := get_callers_go_ok _ _ hsup
    have htf := targetsFor_ok cfg p cfg.enable_callers hext hsup
    have hr := ih fun x hx => hrows x (List.mem_cons_of_mem _ hx)
    simp [processRows, hp, hgc, htf, hr, rowPathD]

/-- Length of a flat map whose pieces all have the same length. -/
theorem length_flatMap_const {α β : Type} (l : List α) (f : α → List β) (k : Nat)
    (h : ∀ a, (f a).length = k) : (l.flatMap f).length = l.length * k := by
  induction l with
  | nil => simp
  | cons a rest ih =>
    simp [h, ih, Nat.succ_mul, Nat.add_comm]

/-- Claim C8: for every workflow mode value other than `"s"` and `"p"`,
`make_output` fails with the invalid-workflow-mode error and produces no
target list. -/
theorem claim_C8 (cfg : Config) (rows : List Row)
    (h1 : cfg.mode ≠ "s") (h2 : cfg.mode ≠ "p") :
    make_output cfg rows = .error .modeErr ∧ ∀ l, make_output cfg rows ≠ .ok l := by
  have hm : ¬ (cfg.mode = "s" ∨ cfg.mode = "p") := by
    rintro (h | h)
    · exact h1 h
    · exact h2 h
  have he : make_output cfg rows = .error .modeErr := by
    simp [make_output, hm]
  exact ⟨he, fun l hl => by rw [he] at hl; exact Except.noConfusion hl⟩

/-- Witness for C8 at the concrete mode `"x"`. -/
theorem claim_C8_witness : make_output cfgX [] = .error .modeErr :=
  (claim_C8 cfgX [] (by decide) (by decide)).1

/-- Claim C10: for every caller present in the supported mapping, the
resource accessors return the configured value when the key is present and
the fixed defaults `1` (threads), `1024` (memory) and `0` (tmpspace) when it
is absent. -/
theorem claim_C10 (cfg : Config) (c : String) (s : CallerSettings)
    (h : cfg.callers.lookup c = some s) :
    (get_nthreads cfg c = some (s.threads.getD 1)
      ∧ (s.threads = none → get_nthreads cfg c = some 1)
      ∧ ∀ v, s.threads = some v → get_nthreads cfg c = some v)
    ∧ (get_memory cfg c = some (s.memory.getD 1024)
      ∧ (s.memory = none → get_memory cfg c = some 1024)
      ∧ ∀ v, s.memory = some v → get_memory cfg c = some v)
    ∧ (get_tmpspace cfg c = some (s.tmpspace.getD 0)
      ∧ (s.tmpspace = none → get_tmpspace cfg c = some 0)
      ∧ ∀ v, s.tmpspace = some v → get_tmpspace cfg c = some v) := by
  refine ⟨⟨?_, ?_, ?_⟩, ⟨?_, ?_, ?_⟩, ⟨?_, ?_, ?_⟩⟩
  · simp [get_nthreads, h]
  · intro ht; simp [get_nthreads, h, ht]
  · intro v hv; simp [get_nthreads, h, hv]
  · simp [get_memory, h]
  · intro ht; simp [get_memory, h, ht]
  · intro v hv; simp [get_memory, h, hv]
  · simp [get_tmpspace, h]
  · intro ht; simp [get_tmpspace, h, ht]
  · intro v hv; simp [get_tmpspace, h, hv]

/-- Witness for C10: `manta` has no resource keys and gets every default;
`delly` has all keys configured and gets the configured values back. -/
theorem claim_C10_witness :
    (get_nthreads cfgTwo "manta" = some 1 ∧ get_memory cfgTwo "manta" = some 1024
      ∧ get_tmpspace cfgTwo "manta" = some 0)
    ∧ (get_nthreads cfgTwo "delly" = some 4 ∧ get_memory cfgTwo "delly" = some 8192
      ∧ get_tmpspace cfgTwo "delly" = some 10) :=
  ⟨⟨(claim_C10 cfgTwo "manta" mantaSettings (by decide)).1.2.1 rfl,
    (claim_C10 cfgTwo "manta" mantaSettings (by decide)).2.1.2.1 rfl,
    (claim_C10 cfgTwo "manta" mantaSettings (by decide)).2.2.2.1 rfl⟩,
   ⟨(claim_C10 cfgTwo "delly" dellySettings (by decide)).1.2.2 4 rfl,
    (claim_C10 cfgTwo "delly" dellySettings (by decide)).2.1.2.2 8192 rfl,
    (claim_C10 cfgTwo "delly" dellySettings (by decide)).2.2.2.2 10 rfl⟩⟩

/-- Claim C7: on a row with nonempty `SAMPLE1` and a present nonempty
`SAMPLE2`, single mode builds the segment `join(PATH, SAMPLE1)` and paired
mode appends `--SAMPLE2` to it; the two segments always differ, and with a
nonempty `PATH` and no stray separators the single segment is literally
`PATH/SAMPLE1`. -/
theorem claim_C7 (p s1 s2 : String) (h1 : s1 ≠ "") (h2 : s2 ≠ "")
    (vs : List (Option String)) :
    rowPath "s" ⟨some p, some s1, some s2, vs⟩ = some (pjoin p s1)
    ∧ rowPath "p" ⟨some p, some s1, some s2, vs⟩ = some (pjoin p s1 ++ "--" ++ s2)
    ∧ pjoin p s1 ≠ pjoin p s1 ++ "--" ++ s2
    ∧ (p ≠ "" → ¬ p.data.getLast? = some '/' → ¬ s1.data.head? = some '/' →
        pjoin p s1 = p ++ "/" ++ s1) := by
  refine ⟨?_, ?_, ?_, ?_⟩
  · simp [rowPath, is_ok, h1]
  · simp [rowPath, is_ok, h1, h2]
  · intro h
    have hd := congrArg String.data h
    simp [String.data_append] at hd
  · intro hp hpl hs1
    exact pjoin_eq p s1 hs1 hp hpl

/-- Witness for C7 at `PATH = "runs"`, `SAMPLE1 = "A"`, `SAMPLE2 = "B"`. -/
theorem claim_C7_witness :
    rowPath "s" ⟨some "runs", some "A", some "B", []⟩ = some "runs/A"
    ∧ rowPath "p" ⟨some "runs", some "A", some "B", []⟩ = some "runs/A--B" := by
  have h := claim_C7 "runs" "A" "B" (by decide) (by decide) []
  refine ⟨?_, ?_⟩
  · rw [h.1]; decide
  · rw [h.2.1]; decide

/-- Claim C5: the merged-target derivation is order-independent (a permuted
target sequence yields the identical set), collapses duplicate contributions
(deriving from a doubled sequence changes nothing), and a merged path is in
the set exactly when some input target maps to it. -/
theorem claim_C5 :
    (∀ l l' : List String, List.Perm l l' → deriveMerged l = deriveMerged l')
    ∧ (∀ l : List String, deriveMerged (l ++ l) = deriveMerged l)
    ∧ (∀ (x : String) (l : List String),
        x ∈ deriveMerged l ↔ ∃ f ∈ l, mergePath f = x) := by
  refine ⟨fun l l' h => ?_, fun l => ?_, fun x l => ?_⟩
  · exact List.toFinset_eq_of_perm _ _ (h.map mergePath)
  · simp [deriveMerged]
  · simp [deriveMerged]

/-- Witness for C5: swapping two per-caller targets of the same sample
directory leaves the singleton merged set unchanged. -/
theorem claim_C5_witness :
    deriveMerged
        ["runs/A--B/manta_out/survivor/manta.vcf", "runs/A--B/delly_out/survivor/delly.vcf"]
      = deriveMerged
        ["runs/A--B/delly_out/survivor/delly.vcf", "runs/A--B/manta_out/survivor/manta.vcf"] :=
  claim_C5.1 _ _ (by decide)

/-- Claim C4: a per-caller target is the sample path, the caller's output
directory, the fixed `survivor` segment and the caller name with the VCF
extension, joined by separators (whenever none of the pieces carries a stray
leading or trailing separator of its own); and on the spec's end-to-end
example 1 — row `{PATH: "runs", SAMPLE1: "A", SAMPLE2: "B"}`, paired mode,
caller `manta` with output directory `manta_out` and extension `.vcf` —
`make_output` returns exactly `["runs/A--B/manta_out/survivor/manta.vcf"]`
and `make_all` the set `{"runs/A--B/all.vcf"}`. -/
theorem claim_C4 :
    (∀ p d n e : String, p ≠ "" → ¬ p.data.getLast? = some '/' → d ≠ "" →
        ¬ d.data.head? = some '/' → ¬ d.data.getLast? = some '/' →
        ¬ (n ++ e).data.head? = some '/' →
        pjoin (pjoin (pjoin p d) "survivor") (n ++ e)
          = p ++ "/" ++ d ++ "/" ++ "survivor" ++ "/" ++ (n ++ e))
    ∧ make_output cfgBase [rowAB] = .ok ["runs/A--B/manta_out/survivor/manta.vcf"]
    ∧ make_all cfgBase [rowAB] = .ok {"runs/A--B/all.vcf"} := by
  refine ⟨?_, by decide, by decide⟩
  intro p d n e hp hpl hd hdh hdl hne
  have h1 : pjoin p d = p ++ "/" ++ d := pjoin_eq p d hdh hp hpl
  have t1l : (p ++ "/" ++ d).data.getLast? = d.data.getLast? :=
    getLast_append_str (p ++ "/") d hd
  have h2 : pjoin (p ++ "/" ++ d) "survivor" = p ++ "/" ++ d ++ "/" ++ "survivor" :=
    pjoin_eq _ _ (by decide) (append_sep_ne_empty p d) (by rw [t1l]; exact hdl)
  have t2l : (p ++ "/" ++ d ++ "/" ++ "survivor").data.getLast?
      = ("survivor" : String).data.getLast? :=
    getLast_append_str (p ++ "/" ++ d ++ "/") "survivor" (by decide)
  have h3 : pjoin (p ++ "/" ++ d ++ "/" ++ "survivor") (n ++ e)
      = p ++ "/" ++ d ++ "/" ++ "survivor" ++ "/" ++ (n ++ e) :=
    pjoin_eq _ _ hne (append_sep_ne_empty (p ++ "/" ++ d) "survivor")
      (by rw [t2l]; decide)
  rw [h1, h2, h3]

/-- Witness for C4's shape conjunct at the example's concrete pieces. -/
theorem claim_C4_witness :
    pjoin (pjoin (pjoin "runs/A--B" "manta_out") "survivor") ("manta" ++ ".vcf")
      = "runs/A--B" ++ "/" ++ "manta_out" ++ "/" ++ "survivor" ++ "/" ++ ("manta" ++ ".vcf") :=
  claim_C4.1 "runs/A--B" "manta_out" "manta" ".vcf" (by decide) (by decide)
    (by decide) (by decide) (by decide) (by decide)

/-- Claim C3: under a valid mode, an all-supported enabled list and all-valid
rows, `make_output` returns the full cross product in manifest-major,
caller-minor order with the callers in enabled-list order, and its length is
exactly `N * K`. -/
theorem claim_C3 (cfg : Config) (rows : List Row)
    (hm : cfg.mode = "s" ∨ cfg.mode = "p")
    (hext : (cfg.file_exts.lookup "vcf").isSome)
    (hsup : ∀ c ∈ cfg.enable_callers, (cfg.callers.lookup c).isSome)
    (hrows : ∀ r ∈ rows, (rowPath cfg.mode r).isSome) :
    make_output cfg rows
      = .ok (rows.flatMap fun r =>
          cfg.enable_callers.map fun c => mkTarget cfg (rowPathD cfg.mode r) c)
    ∧ ∀ l, make_output cfg rows = .ok l
        → l.length = rows.length * cfg.enable_callers.length := by
  have h := processRows_ok cfg rows hext hsup hrows 0
  have hmk : make_output cfg rows
      = .ok (rows.flatMap fun r =>
          cfg.enable_callers.map fun c => mkTarget cfg (rowPathD cfg.mode r) c) := by
    rw [make_output_valid_mode cfg rows hm, h]
  refine ⟨hmk, fun l hl => ?_⟩
  rw [hmk] at hl
  have hll := Except.ok.inj hl
  rw [← hll]
  exact length_flatMap_const rows _ cfg.enable_callers.length fun r => by simp

/-- Witness for C3: two rows and two enabled callers give the four targets in
manifest-major, caller-minor order. -/
theorem claim_C3_witness :
    make_output cfgTwo
        [⟨some "runs", some "A", none, [some "runs", some "A"]⟩,
         ⟨some "runs", some "B", none, [some "runs", some "B"]⟩]
      = .ok ["runs/A/manta_out/survivor/manta.vcf", "runs/A/delly_out/survivor/delly.vcf",
             "runs/B/manta_out/survivor/manta.vcf", "runs/B/delly_out/survivor/delly.vcf"] := by
  have h := claim_C3 cfgTwo
    [⟨some "runs", some "A", none, [some "runs", some "A"]⟩,
     ⟨some "runs", some "B", none, [some "runs", some "B"]⟩]
    (Or.inl rfl) (by decide) (by decide) (by decide)
  rw [h.1]
  decide

/-- Claim C6: comment-line skipping is content-independent — inserting a line
whose first character is `#` anywhere in the manifest changes neither the
derived per-caller targets nor the merged set, including every reported error
with its record index. -/
theorem claim_C6 (cfg : Config) (pre post : List String) (c : String)
    (hc : c.data.head? = some '#') :
    make_outputL cfg (pre ++ c :: post) = make_outputL cfg (pre ++ post)
    ∧ make_allL cfg (pre ++ c :: post) = make_allL cfg (pre ++ post) := by
  have hp : parseManifest (pre ++ c :: post) = parseManifest (pre ++ post) := by
    unfold parseManifest
    rw [List.filter_append, List.filter_append, List.filter_cons]
    simp [hc]
  constructor
  · unfold make_outputL
    rw [hp]
  · unfold make_allL make_outputL
    rw [hp]

/-- Witness for C6: a comment between the header and the data row leaves the
end-to-end result unchanged, and the shared result is the example target. -/
theorem claim_C6_witness :
    make_outputL cfgBase ["PATH,SAMPLE1,SAMPLE2", "#note", "runs,A,B"]
      = make_outputL cfgBase ["PATH,SAMPLE1,SAMPLE2", "runs,A,B"]
    ∧ make_outputL cfgBase ["PATH,SAMPLE1,SAMPLE2", "runs,A,B"]
      = .ok ["runs/A--B/manta_out/survivor/manta.vcf"] :=
  ⟨(claim_C6 cfgBase ["PATH,SAMPLE1,SAMPLE2"] ["runs,A,B"] "#note" (by decide)).1,
   by decide⟩

/-- A row's sample-path construction fails exactly when `PATH` is absent,
`SAMPLE1` is absent or empty, or — in paired mode — `SAMPLE2` is absent or
empty. -/
theorem rowPath_none_iff (mode : String) (r : Row) :
    rowPath mode r = none
      ↔ (r.path = none ∨ is_ok r.sample1 = none
          ∨ (mode.data.head? = some 'p' ∧ is_ok r.sample2 = none)) := by
  rcases hp : r.path with _ | p
  · simp [rowPath, hp]
  · rcases hs : is_ok r.sample1 with _ | s1
    · simp [rowPath, hp, hs]
    · by_cases hm : mode.data.head? = some 'p'
      · rcases h2 : is_ok r.sample2 with _ | s2 <;> simp [rowPath, hp, hs, hm, h2]
      · simp [rowPath, hp, hs, hm]

/-- The row loop aborts at the first invalid row, reporting its 1-based
record index and raw values, provided the earlier rows are valid and the
configuration lets them pass. -/
theorem processRows_badRow (cfg : Config) (pre post : List Row) (r : Row)
    (hext : (cfg.file_exts.lookup "vcf").isSome)
    (hsup : ∀ c ∈ cfg.enable_callers, (cfg.callers.lookup c).isSome)
    (hpre : ∀ x ∈ pre, (rowPath cfg.mode x).isSome)
    (hbad : rowPath cfg.mode r = none) (i : Nat) :
    processRows cfg (pre ++ r :: post) i
      = .error (.rowErr cfg.samples (i + pre.length + 1) r.values) := by
  induction pre generalizing i with
  | nil => simp [processRows, hbad]
  | cons q rest ih =>
    obtain ⟨p, hp⟩ := Option.isSome_iff_exists.mp (hpre q (by simp))
    have hgc : get_callers cfg = .ok cfg.enable_callers := get_callers_go_ok _ _ hsup
    have htf := targetsFor_ok cfg p cfg.enable_callers hext hsup
    have hr := ih (fun x hx => hpre x (List.mem_cons_of_mem _ hx)) (i + 1)
    simp [processRows, hp, hgc, htf, hr]
    omega

/-- Claim C2 (as amended): a data row is rejected exactly when `PATH` is
absent, `SAMPLE1` is absent or empty, or — in paired mode — `SAMPLE2` is
absent or empty (an empty `PATH` string is accepted); the first such row
aborts the whole derivation with the missing-value error citing its 1-based
record index and its raw values, so it contributes to no output
collection. -/
theorem claim_C2 (cfg : Config) (pre post : List Row) (r : Row)
    (hm : cfg.mode = "s" ∨ cfg.mode = "p")
    (hext : (cfg.file_exts.lookup "vcf").isSome)
    (hsup : ∀ c ∈ cfg.enable_callers, (cfg.callers.lookup c).isSome)
    (hpre : ∀ x ∈ pre, (rowPath cfg.mode x).isSome)
    (hbad : r.path = none ∨ is_ok r.sample1 = none
      ∨ (cfg.mode.data.head? = some 'p' ∧ is_ok r.sample2 = none)) :
    make_output cfg (pre ++ r :: post)
      = .error (.rowErr cfg.samples (pre.length + 1) r.values)
    ∧ ∀ (mode : String) (x : Row),
        rowPath mode x = none
          ↔ (x.path = none ∨ is_ok x.sample1 = none
              ∨ (mode.data.head? = some 'p' ∧ is_ok x.sample2 = none)) := by
  constructor
  · have hb : rowPath cfg.mode r = none := (rowPath_none_iff cfg.mode r).mpr hbad
    have h := processRows_badRow cfg pre post r hext hsup hpre hb 0
    rw [make_output_valid_mode _ _ hm, h]
    simp
  · exact rowPath_none_iff

/-- Witness for C2: in paired mode a second row lacking `SAMPLE2` aborts the
run with record index 2 and the row's raw values. -/
theorem claim_C2_witness :
    make_output cfgBase ([rowAB] ++ rowNoS2 :: [])
      = .error (.rowErr "samples.csv" 2 [some "runs", some "C", none]) := by
  have h := (claim_C2 cfgBase [rowAB] [] rowNoS2 (Or.inr rfl) (by decide) (by decide)
    (by decide) (by decide)).1
  simpa using h

/-- Counterexample to C2 as stated: a row whose required `PATH` field is the
empty string is not rejected — `make_output` accepts it and emits its target
(the source guards `SAMPLE1`/`SAMPLE2` with `is_ok` but passes `r["PATH"]` to
`os.path.join` unguarded, and joining from the empty string succeeds). -/
theorem claim_C2_counterexample :
    rowEmptyPath.path = some ""
    ∧ make_output cfgS [rowEmptyPath] = .ok ["A/manta_out/survivor/manta.vcf"] :=
  ⟨rfl, by decide⟩

/-- Claim C1 (as amended): with an unsupported enabled caller `make_output`
never yields a target — any returned list is empty (a manifest with no data
rows returns `ok []` with no error raised), and once a first data row is
present and parses, the run aborts with the unsupported-caller error, raised
while processing that row rather than before manifest parsing. -/
theorem claim_C1 (cfg : Config) (c : String) (hc : c ∈ cfg.enable_callers)
    (hbad : cfg.callers.lookup c = none) :
    (∀ rows l, make_output cfg rows = .ok l → l = [])
    ∧ (∀ (r : Row) (rs : List Row) (p : String),
        (cfg.mode = "s" ∨ cfg.mode = "p") → rowPath cfg.mode r = some p →
        ∃ e, make_output cfg (r :: rs) = .error (.callerErr e)) := by
  have hgc : ∃ e, get_callers cfg = .error (.callerErr e) :=
    get_callers_go_error cfg.callers cfg.enable_callers ⟨c, hc, hbad⟩
  constructor
  · intro rows l h
    by_cases hm : cfg.mode = "s" ∨ cfg.mode = "p"
    · rw [make_output_valid_mode _ _ hm] at h
      cases rows with
      | nil => exact (Except.ok.inj h).symm
      | cons r rest =>
        cases hrp : rowPath cfg.mode r with
        | none => simp [processRows, hrp] at h
        | some p =>
          obtain ⟨e, he⟩ := hgc
          simp [processRows, hrp, he] at h
    · rw [make_output, if_neg hm] at h
      exact Except.noConfusion h
  · intro r rs p hm hrp
    obtain ⟨e, he⟩ := hgc
    refine ⟨e, ?_⟩
    rw [make_output_valid_mode _ _ hm]
    simp [processRows, hrp, he]

/-- Witness for C1: with the unsupported enabled caller `bogus` and a valid
first data row, the run aborts with the unsupported-caller error. -/
theorem claim_C1_witness :
    ∃ e, make_output cfgBad [⟨some "runs", some "A", some "B", []⟩]
      = .error (.callerErr e) := by
  have h := claim_C1 cfgBad "bogus" (by decide) (by decide)
  exact h.2 ⟨some "runs", some "A", some "B", []⟩ [] "runs/A" (Or.inl rfl) (by decide)

/-- Counterexample to C1 as stated: with the unsupported enabled caller
`bogus`, a manifest with no data rows raises no error at all, and when a
first data row is present but malformed, the reported error is the
missing-value manifest error — so manifest parsing happens before the
unsupported-caller check, which runs inside the row loop. -/
theorem claim_C1_counterexample :
    "bogus" ∈ cfgBad.enable_callers
    ∧ cfgBad.callers.lookup "bogus" = none
    ∧ make_output cfgBad [] = .ok []
    ∧ make_output cfgBad [rowNone] = .error (.rowErr "samples.csv" 1 [none]) :=
  ⟨by decide, by decide, by decide, by decide⟩

/-- In single mode the sample path reads only `PATH` and `SAMPLE1`. -/
theorem rowPath_s_congr (r r' : Row) (hp : r.path = r'.path)
    (hs : r.sample1 = r'.sample1) : rowPath "s" r = rowPath "s" r' := by
  have hns : ¬ (("s" : String).data.head? = some 'p') := by decide
  simp [rowPath, hp, hs, hns]

/-- In single mode, rows agreeing on `PATH` and `SAMPLE1` drive the row loop
to the same successful results. -/
theorem processRows_s_ok_iff (cfg : Config) (hm : cfg.mode = "s")
    (rows rows' : List Row)
    (hrel : List.Forall₂ (fun a b => a.path = b.path ∧ a.sample1 = b.sample1) rows rows') :
    ∀ i l, processRows cfg rows i = .ok l ↔ processRows cfg rows' i = .ok l := by
  induction hrel with
  | nil => intro i l; exact Iff.rfl
  | @cons a b l₁ l₂ hab hrest ih =>
    intro i l
    have hr : rowPath cfg.mode a = rowPath cfg.mode b := by
      rw [hm]; exact rowPath_s_congr a b hab.1 hab.2
    cases hrp : rowPath cfg.mode b with
    | none => simp [processRows, hr, hrp]
    | some p =>
      simp only [processRows, hr, hrp]
      cases hgc : get_callers cfg with
      | error e => simp [hgc]
      | ok cs =>
        cases htf : targetsFor cfg p cs with
        | error e => simp [hgc, htf]
        | ok ts =>
          cases hA : processRows cfg l₁ (i + 1) with
          | error e =>
            cases hB : processRows cfg l₂ (i + 1) with
            | error f => simp [hgc, htf, hA, hB]
            | ok lb =>
              have hcontra := (ih (i + 1) lb).mpr hB
              rw [hA] at hcontra
              exact absurd hcontra fun hx => Except.noConfusion hx
          | ok la =>
            have hB := (ih (i + 1) la).mp hA
            simp [hgc, htf, hA, hB]

/-- Claim C9: in single mode the `SAMPLE2` field is ignored — for any two row
lists agreeing on `PATH` and `SAMPLE1` (with `SAMPLE2` present, absent or
empty on either side), `make_output` returns the identical target list, and a
row is never rejected because of its `SAMPLE2` value. -/
theorem claim_C9 (cfg : Config) (rows rows' : List Row) (hm : cfg.mode = "s")
    (hrel : List.Forall₂ (fun a b => a.path = b.path ∧ a.sample1 = b.sample1) rows rows') :
    ∀ l, make_output cfg rows = .ok l ↔ make_output cfg rows' = .ok l := by
  intro l
  rw [make_output_valid_mode _ _ (Or.inl hm), make_output_valid_mode _ _ (Or.inl hm)]
  exact processRows_s_ok_iff cfg hm rows rows' hrel 0 l

/-- Witness for C9: dropping the `SAMPLE2` value of a row changes nothing in
single mode. -/
theorem claim_C9_witness :
    make_output cfgS [⟨some "runs", some "A", none, []⟩]
      = .ok ["runs/A/manta_out/survivor/manta.vcf"] := by
  have h := claim_C9 cfgS [⟨some "runs", some "A", some "B", []⟩]
    [⟨some "runs", some "A", none, []⟩] rfl
    (List.Forall₂.cons ⟨rfl, rfl⟩ List.Forall₂.nil)
  exact (h ["runs/A/manta_out/survivor/manta.vcf"]).mp (by decide)

end SvCallers
